import Mathlib

/-!
Verification development for the month_expenses_manager repository.

The repository has a single source file, src/expense_manager.py, defining the
class ExpenseManager over a pandas dataframe loaded from a semicolon-delimited
csv file.  This file shallowly embeds the coerced table as a list of records,
cell values as Lean data (rationals for the numeric value column, a calendar
date triple for the date column, strings and booleans for the rest), and each
query method of the class as a pure Lean function, translated line by line
from the python source.  Theorems about these definitions settle the claims
drawn from the specification.
-/

/-- Calendar date, the result of coercing the date column with
pd.to_datetime under the fixed pattern month/day/year.  pandas timestamps
compare chronologically, which for date-only stamps is the lexicographic
order on (year, month, day). -/
structure Date where
  year : Nat
  month : Nat
  day : Nat
deriving DecidableEq

/-- Boolean chronological comparison of dates, modelling the timestamp
comparison df_base[DT_COL] >= dt_time in get_sum_by_date
(src/expense_manager.py line 111). -/
def Date.ble (a b : Date) : Bool :=
  decide (a.year < b.year) ||
    (decide (a.year = b.year) &&
      (decide (a.month < b.month) ||
        (decide (a.month = b.month) && decide (a.day ≤ b.day))))

/-- One row of the coerced table self.df_exp, with the nine columns of the
csv schema (src/expense_manager.py lines 25-33) at their coerced types
(convert_all_cols, lines 73-89). -/
structure ExpenseRecord where
  date : Date
  product : String
  value : ℚ
  category : String
  payment_method : String
  priority : Bool
  my_expense : Bool
  fixed_expense : Bool
  details : String
deriving DecidableEq

/-- Column names of the table (the *_COL class constants). -/
inductive Col where
  | date
  | product
  | value
  | category
  | payment_method
  | priority
  | my_expense
  | fixed_expense
  | details
deriving DecidableEq

/-- A cell value of the coerced table: a timestamp, a string, a number or a
boolean. -/
inductive CellVal where
  | dt (d : Date)
  | s (v : String)
  | q (v : ℚ)
  | b (v : Bool)
deriving DecidableEq

/-- Reading the cell of a record at a named column, as df[col] does row-wise. -/
def getCell (r : ExpenseRecord) : Col → CellVal
  | .date => .dt r.date
  | .product => .s r.product
  | .value => .q r.value
  | .category => .s r.category
  | .payment_method => .s r.payment_method
  | .priority => .b r.priority
  | .my_expense => .b r.my_expense
  | .fixed_expense => .b r.fixed_expense
  | .details => .s r.details

/-! ### Column coercion (convert_col, src/expense_manager.py lines 42-71)

The cell-level semantics of the numeric and boolean branches of convert_col.
Cells are modelled as lists of characters. -/

/-- Python str.replace of the pattern "no" by the empty string: scan left to
right, removing every non-overlapping occurrence of the two-character
pattern (src/expense_manager.py line 68). -/
def replaceNo : List Char → List Char
  | 'n' :: 'o' :: rest => replaceNo rest
  | c :: rest => c :: replaceNo rest
  | [] => []

/-- The boolean branch of convert_col: replace the substring "no" by the
empty string, then astype(bool), which maps the empty string to False and
any non-empty string to True (src/expense_manager.py lines 62-69). -/
def convert_bool (s : List Char) : Bool :=
  !(replaceNo s).isEmpty

/-- Replacing every comma by a period, one cell of
self.df_exp[col_name].str.replace of a comma by a period
(src/expense_manager.py line 52).  Both the pattern and the replacement are
single characters, so the replacement is a character map. -/
def commaToDot (c : Char) : Char :=
  if c = ',' then '.' else c

/-- Replacing every period by a comma; used to state that a numeric string
written with a comma separator coerces like the same string written with a
period separator. -/
def dotToComma : List Char → List Char
  | [] => []
  | c :: cs => (if c = '.' then ',' else c) :: dotToComma cs

/-- Numeric value of a decimal digit character. -/
def digitVal (c : Char) : Nat := c.toNat - 48

/-- Value of a string of decimal digits read left to right. -/
def digitsToNat (l : List Char) : Nat :=
  l.foldl (fun a c => 10 * a + digitVal c) 0

/-- All characters are decimal digits. -/
def allDigits (l : List Char) : Bool := l.all Char.isDigit

/-- Decimal parsing of one cell, modelling pd.to_numeric
(src/expense_manager.py line 54) on the unsigned decimal forms the expense
file uses: an integer part and an optional fractional part separated by a
single period, at least one digit in total; anything else fails. -/
def parseDec (s : List Char) : Option ℚ :=
  let ip := s.takeWhile (fun c => !(c == '.'))
  let rest := s.dropWhile (fun c => !(c == '.'))
  match rest with
  | [] => if allDigits ip && !ip.isEmpty then some ((digitsToNat ip : ℚ)) else none
  | _ :: frac =>
      if allDigits ip && allDigits frac && !(ip.isEmpty && frac.isEmpty)
          && !(frac.contains '.') then
        some ((digitsToNat ip : ℚ) + (digitsToNat frac : ℚ) / (10 : ℚ) ^ frac.length)
      else none

/-- The numeric branch of convert_col: replace every comma by a period, then
parse as a decimal number (src/expense_manager.py lines 50-54). -/
def convert_numeric (s : List Char) : Option ℚ :=
  parseDec (s.map commaToDot)

/-! ### Rounding and sums (get_sum, src/expense_manager.py lines 91-100) -/

/-- Rounding to the nearest integer, halves to the even neighbour: the
convention of the python built-in round used on the column sum
(src/expense_manager.py line 100). -/
def roundHalfToEven (x : ℚ) : ℤ :=
  let n : ℤ := ⌊x⌋
  if x - n < 1 / 2 then n
  else if 1 / 2 < x - n then n + 1
  else if n % 2 = 0 then n else n + 1

/-- round(v, 2): round at the second decimal place. -/
def round2 (x : ℚ) : ℚ :=
  ((roundHalfToEven (x * 100) : ℤ) : ℚ) / 100

/-- Sum of the value column over a record sequence,
df_filtered[VAL_COL].sum() (src/expense_manager.py line 99); the sum of an
empty column is 0. -/
def sumValues (l : List ExpenseRecord) : ℚ :=
  l.foldl (fun a r => a + r.value) 0

/-- get_sum: sum the value column and round the total to 2 decimal places
(src/expense_manager.py lines 91-100). -/
def get_sum (df_filtered : List ExpenseRecord) : ℚ :=
  round2 (sumValues df_filtered)

/-- get_sum_by_date: keep the rows whose date is on or after filter_date,
then apply get_sum (src/expense_manager.py lines 102-113). -/
def get_sum_by_date (df_base : List ExpenseRecord) (filter_date : Date) : ℚ :=
  get_sum (df_base.filter (fun r => Date.ble filter_date r.date))

/-- get_filtered_df: keep the rows whose my_expense flag equals my_own_exp,
then among those the rows whose cell at filter_col equals filter_val
(src/expense_manager.py lines 115-126). -/
def get_filtered_df (df_exp : List ExpenseRecord) (filter_col : Col)
    (filter_val : CellVal) (my_own_exp : Bool) : List ExpenseRecord :=
  let df_my_exp := df_exp.filter (fun r => r.my_expense == my_own_exp)
  df_my_exp.filter (fun r => getCell r filter_col == filter_val)

/-! ### Sorting (sort_values with ascending=False, src/expense_manager.py
lines 142, 147, 153, 156)

summary sorts with the default kind of sort_values, numpy introsort, which
leaves the relative order of rows with equal keys unspecified once the
array exceeds the 16-element insertion-sort cutoff of introsort.  Below
that cutoff introsort is a stable insertion sort, and pandas realizes the
descending order by reversing the rows, taking an ascending argsort and
reversing the resulting indexer, which then preserves the original
relative order of equal keys.  We embed the sort as a descending insertion
sort by the given rational key: on tables small enough for the cutoff —
such as the concrete tables used below — it computes the very output of
the program, and elsewhere the theorems use it only parametrically (the
same sort on both sides of an equation) or through properties that do not
depend on the order of equal keys. -/

/-- Insert an element into a list, in front of the first position whose
element compares le-true against it. -/
def insertSorted (le : α → α → Bool) (a : α) : List α → List α
  | [] => [a]
  | x :: xs => if le a x then a :: x :: xs else x :: insertSorted le a xs

/-- Insertion sort for the comparison le. -/
def sortWith (le : α → α → Bool) (l : List α) : List α :=
  l.foldr (insertSorted le) []

/-- Descending comparison by a rational key. -/
def descLe (f : α → ℚ) (a b : α) : Bool :=
  decide (f b ≤ f a)

/-- Descending sort by a rational key.  The program's sort leaves the order
of equal keys unspecified; this insertion sort realizes one admissible
order, the one the program actually produces below the introsort cutoff. -/
def sort_desc_by (f : α → ℚ) (l : List α) : List α :=
  sortWith (descLe f) l

/-- df.sort_values(VAL_COL, ascending=False): descending sort of the
records by the value column. -/
def sort_values_desc (l : List ExpenseRecord) : List ExpenseRecord :=
  sort_desc_by ExpenseRecord.value l

/-! ### Grouped aggregation (groupby(CATEG_COL).sum() then descending
sort_values and "[:3]", src/expense_manager.py lines 145-147 and 155-156) -/

/-- The distinct categories of the table in order of first appearance. -/
def first_appearance_keys (df : List ExpenseRecord) : List String :=
  df.foldl (fun acc r => if acc.contains r.category then acc else acc ++ [r.category]) []

/-- Code-point lexicographic comparison of character lists, the string order
pandas uses to sort group keys. -/
def charsLe : List Char → List Char → Bool
  | [], _ => true
  | _ :: _, [] => false
  | a :: as, b :: bs => if a = b then charsLe as bs else decide (a.toNat < b.toNat)

/-- Code-point lexicographic comparison of strings. -/
def strLe (a b : String) : Bool :=
  charsLe a.toList b.toList

/-- df[[CATEG_COL, VAL_COL]].groupby(CATEG_COL).sum(): one row per distinct
category with the within-group sum of the value column; groupby sorts the
group keys ascending (its default sort=True). -/
def groupby_sum (df : List ExpenseRecord) : List (String × ℚ) :=
  (sortWith strLe (first_appearance_keys df)).map
    (fun c => (c, sumValues (df.filter (fun r => r.category == c))))

/-- The grouped table sorted descending by summed value, first three rows
(lines 146-147 and 155-156 of src/expense_manager.py). -/
def group_top3 (df : List ExpenseRecord) : List (String × ℚ) :=
  (sort_desc_by Prod.snd (groupby_sum df)).take 3

/-! ### The summary report (summary, src/expense_manager.py lines 128-157)

The printed quantities of the summary, collected into a structure in print
order: the debit total, the projected top-3 debit rows, the top-3 debit
categories, then the same three for credit. -/

/-- The fixed credit threshold date "2023-10-01" of summary
(src/expense_manager.py line 133). -/
def filter_credit_date : Date := ⟨2023, 10, 1⟩

/-- Projection of a record to the printed columns
[DT_COL, PROD_COL, VAL_COL, CATEG_COL] (line 137). -/
def projRow (r : ExpenseRecord) : Date × String × ℚ × String :=
  (r.date, r.product, r.value, r.category)

/-- The data printed by summary. -/
structure SummaryData where
  sum_debit : ℚ
  debit_items : List (Date × String × ℚ × String)
  debit_categories : List (String × ℚ)
  sum_credit : ℚ
  credit_items : List (Date × String × ℚ × String)
  credit_categories : List (String × ℚ)
deriving DecidableEq

/-- summary (src/expense_manager.py lines 128-157): filter the own debit
rows and the own credit rows, total the debit rows, total the credit rows
restricted to the threshold date, and list the top-3 rows and top-3
category sums of each of the two filtered tables. -/
def summary (df_exp : List ExpenseRecord) : SummaryData :=
  let df_debit := get_filtered_df df_exp Col.payment_method (CellVal.s ("debit")) true
  let sum_debit := get_sum df_debit
  let df_credit := get_filtered_df df_exp Col.payment_method (CellVal.s ("credit")) true
  let sum_credit := get_sum_by_date df_credit filter_credit_date
  { sum_debit := sum_debit
    debit_items := ((sort_values_desc df_debit).take 3).map projRow
    debit_categories := group_top3 df_debit
    sum_credit := sum_credit
    credit_items := ((sort_values_desc df_credit).take 3).map projRow
    credit_categories := group_top3 df_credit }

/-! ### State embedding of the manager object

The loaded coerced table is the mutable state of the python object.  Each
query method is embedded as a function from the state to its result paired
with the state after the call; the method bodies of get_sum,
get_sum_by_date, get_filtered_df and summary contain no assignment to
self.df_exp and every pandas operation they perform (boolean-mask
selection, sort_values with its default inplace=False, groupby sum,
rounding) returns a newly derived object, so each embedded method returns
the incoming state. -/

/-- The state of an ExpenseManager object after load and coercion. -/
structure ManagerState where
  df_exp : List ExpenseRecord
deriving DecidableEq

/-- get_sum as a method call on the object. -/
def get_sum_m (st : ManagerState) (df_filtered : List ExpenseRecord) :
    ℚ × ManagerState :=
  (get_sum df_filtered, st)

/-- get_sum_by_date as a method call on the object. -/
def get_sum_by_date_m (st : ManagerState) (df_base : List ExpenseRecord)
    (filter_date : Date) : ℚ × ManagerState :=
  (get_sum_by_date df_base filter_date, st)

/-- get_filtered_df as a method call on the object; it reads self.df_exp. -/
def get_filtered_df_m (st : ManagerState) (filter_col : Col)
    (filter_val : CellVal) (my_own_exp : Bool) :
    List ExpenseRecord × ManagerState :=
  (get_filtered_df st.df_exp filter_col filter_val my_own_exp, st)

/-- summary as a method call on the object; it reads self.df_exp through
get_filtered_df. -/
def summary_m (st : ManagerState) : SummaryData × ManagerState :=
  (summary st.df_exp, st)

/-! ### Name resolution of the class body (src/expense_manager.py lines 1
and 91)

Under the default python semantics in effect for this code base (annotations
evaluated eagerly when the def statement executes, the behaviour of every
CPython release up to 3.13), executing the class body evaluates the
parameter and return annotations of each method.  The module imports pandas
under the alias pd only (line 1), so the annotation pandas.DataFrame of
get_sum (line 91) looks up a name bound nowhere. -/

/-- Names bound in the enclosing scopes when the class body executes: the
module scope holds pd (line 1) and show_bars (line 4), and the builtin
scope holds the builtin types used in annotations. -/
def scopeNames : List String :=
  [("pd"), ("show_bars"), ("str"), ("float"), ("int"), ("bool")]

/-- Whether a base name used in an annotation resolves. -/
def resolvable (n : String) : Bool :=
  scopeNames.contains n

/-- The base names evaluated by the annotations of each method definition of
the class body, in source order (src/expense_manager.py lines 35, 42, 91,
102, 115); convert_all_cols and summary carry no annotations. -/
def classBodyAnnotationRefs : List (String × String) :=
  [(("__init__"), ("str")),
   (("convert_col"), ("str")), (("convert_col"), ("str")),
   (("get_sum"), ("pandas")), (("get_sum"), ("float")),
   (("get_sum_by_date"), ("pd")), (("get_sum_by_date"), ("str")),
   (("get_sum_by_date"), ("float")),
   (("get_filtered_df"), ("str")), (("get_filtered_df"), ("str")),
   (("get_filtered_df"), ("bool"))]

/-- The first annotation reference of the class body that fails to resolve,
i.e. the point where executing the class body raises NameError, with the
method it occurs in. -/
def firstNameError : Option (String × String) :=
  classBodyAnnotationRefs.find? (fun p => !(resolvable p.2))

/-! ### Helper lemmas -/

theorem filter_comp (p q : α → Bool) (l : List α) :
    (l.filter p).filter q = l.filter (fun a => p a && q a) := by
  induction l with
  | nil => rfl
  | cons a l ih =>
    by_cases hp : p a <;> by_cases hq : q a <;>
      simp [List.filter, hp, hq, ih]

theorem filter_ext (p q : α → Bool) (l : List α) (h : ∀ a, p a = q a) :
    l.filter p = l.filter q := by
  induction l with
  | nil => rfl
  | cons a l ih => simp [List.filter, h a, ih]

theorem mem_insertSorted (le : α → α → Bool) (a y : α) (l : List α) :
    y ∈ insertSorted le a l ↔ y = a ∨ y ∈ l := by
  induction l with
  | nil => simp [insertSorted]
  | cons x xs ih =>
    by_cases h : le a x
    · simp [insertSorted, h]
    · simp [insertSorted, h, ih]
      tauto

theorem pairwise_insert_desc (f : α → ℚ) (a : α) (l : List α)
    (hl : l.Pairwise (fun x y => f y ≤ f x)) :
    (insertSorted (descLe f) a l).Pairwise (fun x y => f y ≤ f x) := by
  induction l with
  | nil => simp [insertSorted]
  | cons x xs ih =>
    rw [List.pairwise_cons] at hl
    obtain ⟨hx, hxs⟩ := hl
    by_cases h : f x ≤ f a
    · have hrw : insertSorted (descLe f) a (x :: xs) = a :: x :: xs := by
        simp [insertSorted, descLe, h]
      rw [hrw, List.pairwise_cons]
      refine ⟨?_, List.pairwise_cons.mpr ⟨hx, hxs⟩⟩
      intro y hy
      rcases List.mem_cons.mp hy with rfl | hy
      · exact h
      · exact le_trans (hx y hy) h
    · have hrw : insertSorted (descLe f) a (x :: xs)
          = x :: insertSorted (descLe f) a xs := by
        simp [insertSorted, descLe, h]
      rw [hrw, List.pairwise_cons]
      refine ⟨?_, ih hxs⟩
      intro y hy
      rcases (mem_insertSorted (descLe f) a y xs).mp hy with rfl | hy
      · exact (lt_of_not_le h).le
      · exact hx y hy

theorem pairwise_sort_desc_by (f : α → ℚ) (l : List α) :
    (sort_desc_by f l).Pairwise (fun x y => f y ≤ f x) := by
  induction l with
  | nil => exact List.Pairwise.nil
  | cons a l ih => exact pairwise_insert_desc f a _ ih

theorem abs_roundHalfToEven_sub_le (x : ℚ) :
    |((roundHalfToEven x : ℤ) : ℚ) - x| ≤ 1 / 2 := by
  have h0 : ((⌊x⌋ : ℤ) : ℚ) ≤ x := Int.floor_le x
  have h1 : x < (⌊x⌋ : ℤ) + 1 := Int.lt_floor_add_one x
  rw [roundHalfToEven]
  split_ifs with hlt hgt hev
  · rw [abs_le]
    constructor <;> linarith
  · rw [abs_le]
    push_cast
    constructor <;> linarith
  · rw [abs_le]
    have heq : x - ((⌊x⌋ : ℤ) : ℚ) = 1 / 2 := le_antisymm (not_lt.mp hgt) (not_lt.mp hlt)
    constructor <;> linarith
  · rw [abs_le]
    have heq : x - ((⌊x⌋ : ℤ) : ℚ) = 1 / 2 := le_antisymm (not_lt.mp hgt) (not_lt.mp hlt)
    push_cast
    constructor <;> linarith

theorem abs_round2_sub_le (x : ℚ) : |round2 x - x| ≤ 1 / 200 := by
  have h := abs_roundHalfToEven_sub_le (x * 100)
  have hx : round2 x - x = (((roundHalfToEven (x * 100) : ℤ) : ℚ) - x * 100) / 100 := by
    rw [round2]
    ring
  rw [hx, abs_div]
  rw [abs_of_pos (by norm_num : (0 : ℚ) < 100)] at *
  linarith

theorem beq_cell_s (a b : String) : (CellVal.s a == CellVal.s b) = (a == b) := by
  rw [Bool.eq_iff_iff]
  simp

theorem own_pay_pred (r : ExpenseRecord) (pm : String) :
    ((r.my_expense == true) && (getCell r Col.payment_method == CellVal.s pm))
      = (r.my_expense && (r.payment_method == pm)) := by
  cases hr : r.my_expense <;> simp [getCell, beq_cell_s]

theorem get_filtered_df_eq (df : List ExpenseRecord) (c : Col) (v : CellVal)
    (own : Bool) :
    get_filtered_df df c v own
      = df.filter (fun r => (r.my_expense == own) && (getCell r c == v)) := by
  simp only [get_filtered_df]
  exact filter_comp _ _ _

theorem filtered_pay_eq (df : List ExpenseRecord) (pm : String) :
    get_filtered_df df Col.payment_method (CellVal.s pm) true
      = df.filter (fun r => r.my_expense && (r.payment_method == pm)) := by
  rw [get_filtered_df_eq]
  exact filter_ext _ _ _ (fun r => own_pay_pred r pm)

/-! ### Concrete tables used in counterexamples and worked examples -/

/-- A record builder with fixed boolean columns: an own, non-fixed,
non-priority expense. -/
def mkExp (dt : Date) (prod : String) (v : ℚ) (cat : String) (pay : String) :
    ExpenseRecord :=
  { date := dt
    product := prod
    value := v
    category := cat
    payment_method := pay
    priority := false
    my_expense := true
    fixed_expense := false
    details := ("") }

/-- A single own credit expense dated before the 2023-10-01 threshold. -/
def cexCreditRec : ExpenseRecord :=
  mkExp ⟨2023, 9, 1⟩ ("tv") 10 ("electronics") ("credit")

/-- Two own debit expenses with equal values whose categories first appear
in the order b, a: reverse alphabetical order. -/
def tieRecs : List ExpenseRecord :=
  [mkExp ⟨2023, 11, 2⟩ ("pan") 5 ("b") ("debit"),
   mkExp ⟨2023, 11, 3⟩ ("sal") 5 ("a") ("debit")]

/-- The worked grouped-aggregation example of the specification: records
with category and value (A, 10), (B, 20), (A, 5). -/
def exampleRecs : List ExpenseRecord :=
  [mkExp ⟨2023, 11, 2⟩ ("x") 10 ("A") ("debit"),
   mkExp ⟨2023, 11, 3⟩ ("y") 20 ("B") ("debit"),
   mkExp ⟨2023, 11, 4⟩ ("z") 5 ("A") ("debit")]

/-! ### Claim theorems -/

/-- C1 counterexample: a single own credit record dated 2023-09-01, before
the threshold, is excluded from the credit total (which is 0) yet appears
both in the credit top-3 item listing and in the credit top-3 category
aggregation, so the claim that the two listings range over the date-bounded
credit subset is false on this table. -/
theorem credit_listing_threshold_cex :
    Date.ble filter_credit_date cexCreditRec.date = false ∧
    (summary [cexCreditRec]).sum_credit = 0 ∧
    (summary [cexCreditRec]).credit_items
      = [(⟨2023, 9, 1⟩, ("tv"), (10 : ℚ), ("electronics"))] ∧
    (summary [cexCreditRec]).credit_categories
      = [(("electronics"), (10 : ℚ))] := by
  refine ⟨by decide, ?_, ?_, ?_⟩
  · simp [summary, get_filtered_df, cexCreditRec, mkExp, get_sum_by_date, get_sum,
      Date.ble, filter_credit_date, getCell]
    norm_num [sumValues, round2, roundHalfToEven]
  · simp [summary, get_filtered_df, cexCreditRec, mkExp, sort_values_desc,
      sort_desc_by, sortWith, insertSorted, projRow, getCell]
  · simp [summary, get_filtered_df, cexCreditRec, mkExp, group_top3, groupby_sum,
      first_appearance_keys, sortWith, insertSorted, sort_desc_by, descLe,
      sumValues, getCell]

/-- C1 amended: in the summary, only the credit total is restricted to the
date threshold 2023-10-01; the credit top-3 item listing and the credit
top-3 category aggregation are computed over all own credit records,
without any date bound. -/
theorem credit_listing_scope (df : List ExpenseRecord) :
    (summary df).credit_items
      = ((sort_values_desc (df.filter
            (fun r => r.my_expense && (r.payment_method == ("credit"))))).take 3).map
          projRow ∧
    (summary df).credit_categories
      = group_top3 (df.filter
          (fun r => r.my_expense && (r.payment_method == ("credit")))) ∧
    (summary df).sum_credit
      = round2 (sumValues ((df.filter
          (fun r => r.my_expense && (r.payment_method == ("credit")))).filter
            (fun r => Date.ble filter_credit_date r.date))) := by
  refine ⟨?_, ?_, ?_⟩
  · show ((sort_values_desc (get_filtered_df df Col.payment_method
        (CellVal.s ("credit")) true)).take 3).map projRow = _
    rw [filtered_pay_eq]
  · show group_top3 (get_filtered_df df Col.payment_method
        (CellVal.s ("credit")) true) = _
    rw [filtered_pay_eq]
  · show round2 (sumValues ((get_filtered_df df Col.payment_method
        (CellVal.s ("credit")) true).filter
          (fun r => Date.ble filter_credit_date r.date))) = _
    rw [filtered_pay_eq]

/-- C2: the boolean coercion of convert_col replaces every occurrence of the
substring "no" by the empty string and maps the remaining string to false
exactly when it is empty; in particular "no" and "" coerce to false while
"yes" and "nobody" coerce to true. -/
theorem bool_coercion_substring_rule :
    (∀ s : List Char, convert_bool s = !(replaceNo s).isEmpty) ∧
    convert_bool (String.toList ("no")) = false ∧
    convert_bool (String.toList ("")) = false ∧
    convert_bool (String.toList ("yes")) = true ∧
    convert_bool (String.toList ("nobody")) = true :=
  ⟨fun _ => rfl, by decide, by decide, by decide, by decide⟩

/-- C3: the numeric coercion of convert_col replaces every comma by a
period before parsing, so a decimal string written with a comma separator
coerces to the same value as the string written with a period separator;
in particular "1,50" and "1.50" both coerce to 3/2 = 1.50. -/
theorem numeric_coercion_separator_indep :
    (∀ s : List Char, convert_numeric (dotToComma s) = convert_numeric s) ∧
    convert_numeric (String.toList ("1,50")) = some ((3 : ℚ) / 2) ∧
    convert_numeric (String.toList ("1.50")) = some ((3 : ℚ) / 2) := by
  refine ⟨?_, ?_, ?_⟩
  · intro s
    have hmap : ∀ t : List Char, (dotToComma t).map commaToDot = t.map commaToDot := by
      intro t
      induction t with
      | nil => rfl
      | cons c cs ih =>
        simp only [dotToComma, List.map, ih, List.cons.injEq, and_true]
        by_cases h : c = '.' <;> simp [commaToDot, h]
      -- done
    simp only [convert_numeric, hmap]
  · simp [convert_numeric, parseDec, commaToDot, allDigits, digitsToNat, digitVal,
      List.takeWhile, List.dropWhile, Char.isDigit]
    norm_num
  · simp [convert_numeric, parseDec, commaToDot, allDigits, digitsToNat, digitVal,
      List.takeWhile, List.dropWhile, Char.isDigit]
    norm_num

/-- C5 counterexample: on a table whose tied categories first appear in the
order b then a, the grouped aggregation returns them in ascending name
order a then b, not in order of first appearance, refuting the claimed
tie-break rule. -/
theorem grouped_tiebreak_cex :
    group_top3 tieRecs = [(("a"), (5 : ℚ)), (("b"), (5 : ℚ))] ∧
    group_top3 tieRecs ≠ [(("b"), (5 : ℚ)), (("a"), (5 : ℚ))] := by
  have h : group_top3 tieRecs = [(("a"), (5 : ℚ)), (("b"), (5 : ℚ))] := by
    simp [group_top3, tieRecs, mkExp, groupby_sum, first_appearance_keys,
      sortWith, insertSorted, sort_desc_by, descLe, strLe, charsLe, sumValues]
  refine ⟨h, ?_⟩
  rw [h]
  simp

/-- C5 amended: the grouped aggregation groups by exact category equality,
sums the value column within each group, sorts the grouped table descending
by summed value and takes its first three rows; the order among groups with
equal sums is not the order of first appearance of the category in the
input (the counterexample shows the program emitting tied groups in a
different order), and the program does not fix a tie order in general; on
(A, 10), (B, 20), (A, 5) the result is (B, 20), (A, 15). -/
theorem grouped_aggregation_spec (df : List ExpenseRecord) :
    group_top3 df = (sort_desc_by Prod.snd (groupby_sum df)).take 3 ∧
    (∀ p ∈ groupby_sum df,
      p.2 = sumValues (df.filter (fun r => r.category == p.1))) ∧
    (sort_desc_by Prod.snd (groupby_sum df)).Pairwise (fun p q => q.2 ≤ p.2) ∧
    group_top3 exampleRecs = [(("B"), (20 : ℚ)), (("A"), (15 : ℚ))] := by
  refine ⟨rfl, ?_, pairwise_sort_desc_by Prod.snd (groupby_sum df), ?_⟩
  · intro p hp
    obtain ⟨c, hc, rfl⟩ := List.mem_map.mp hp
    rfl
  · simp [group_top3, exampleRecs, mkExp, groupby_sum, first_appearance_keys,
      sortWith, insertSorted, sort_desc_by, descLe, strLe, charsLe, sumValues]
    norm_num

/-- C6: get_sum rounds the sum of the value column to two decimal places:
it returns 0 on the empty table, always returns an integer number of
hundredths lying within half a hundredth of the exact sum, and rounds
halves to the even neighbour, the convention of the python built-in round. -/
theorem get_sum_spec :
    get_sum [] = 0 ∧
    (∀ l : List ExpenseRecord, ∃ z : ℤ,
      get_sum l = (z : ℚ) / 100 ∧ |get_sum l - sumValues l| ≤ 1 / 200) ∧
    round2 (1 / 40) = 1 / 50 ∧
    round2 (3 / 40) = 2 / 25 := by
  refine ⟨?_,
    fun l => ⟨roundHalfToEven (sumValues l * 100), rfl, abs_round2_sub_le (sumValues l)⟩,
    ?_, ?_⟩
  · norm_num [get_sum, sumValues, round2, roundHalfToEven]
  · norm_num [round2, roundHalfToEven]
  · norm_num [round2, roundHalfToEven]

/-- C7: the credit total of the summary sums the own credit records dated
on or after the threshold 2023-10-01 (the threshold date itself included),
while the debit total sums all own debit records with no date restriction. -/
theorem credit_debit_total_asymmetry (df : List ExpenseRecord) :
    (summary df).sum_credit
      = round2 (sumValues (df.filter (fun r =>
          (r.my_expense && (r.payment_method == ("credit")))
            && Date.ble filter_credit_date r.date))) ∧
    (summary df).sum_debit
      = round2 (sumValues (df.filter (fun r =>
          r.my_expense && (r.payment_method == ("debit"))))) ∧
    Date.ble filter_credit_date ⟨2023, 10, 1⟩ = true := by
  refine ⟨?_, ?_, by decide⟩
  · show round2 (sumValues ((get_filtered_df df Col.payment_method
        (CellVal.s ("credit")) true).filter
          (fun r => Date.ble filter_credit_date r.date))) = _
    rw [filtered_pay_eq, filter_comp]
  · show round2 (sumValues (get_filtered_df df Col.payment_method
        (CellVal.s ("debit")) true)) = _
    rw [filtered_pay_eq]

/-- C8: get_filtered_df returns exactly the records whose my_expense flag
equals the ownership argument and whose cell at the named column equals the
given value, as a filter of the table, which keeps the original record
order and yields the empty list rather than an error when nothing matches. -/
theorem get_filtered_df_spec (df : List ExpenseRecord) (c : Col) (v : CellVal)
    (own : Bool) :
    get_filtered_df df c v own
      = df.filter (fun r => (r.my_expense == own) && (getCell r c == v)) :=
  get_filtered_df_eq df c v own

/-- C9: in the state embedding of the manager object, every query method
(get_sum, get_sum_by_date, get_filtered_df, summary) leaves the stored
table unchanged: the state after the call equals the state before it. -/
theorem queries_preserve_table (st : ManagerState)
    (df_filtered df_base : List ExpenseRecord) (d : Date) (c : Col)
    (v : CellVal) (own : Bool) :
    (get_sum_m st df_filtered).2 = st ∧
    (get_sum_by_date_m st df_base d).2 = st ∧
    (get_filtered_df_m st c v own).2 = st ∧
    (summary_m st).2 = st :=
  ⟨rfl, rfl, rfl, rfl⟩

/-- C10: the module binds pandas only under the alias pd, so the annotation
pandas.DataFrame on the df_filtered parameter of get_sum is the first
annotation of the class body whose base name fails to resolve; evaluating
the class body therefore raises NameError at get_sum, before the class is
ever created. -/
theorem class_body_name_error :
    resolvable ("pd") = true ∧
    resolvable ("pandas") = false ∧
    firstNameError = some ((("get_sum"), ("pandas"))) :=
  ⟨by decide, by decide, by decide⟩
